import Mathlib

/-!
Shallow embedding of the Store / InventoryManager component of the
ice-cream inventory application (src/app.py, class InventoryManager).

The inventory is a Python dict mapping flavor name to an integer count;
we model it as an association list with first-match lookup, in-place
update of an existing key and append of a new key, which is exactly the
observable behaviour of a Python dict under `d.get(k, 0)`, `k in d` and
`d[k] = v`.  The sales log is a list of sale records appended at the end.

Backend writes in the source can raise (Supabase insert/update) and every
method catches its own exceptions; each operation therefore takes explicit
Boolean parameters saying whether its backend writes succeed, and a failed
write leaves the state unchanged and yields the value the except-branch
returns.
-/

namespace App

/-- Python dict.get k 0 on a flavor-to-count dict (first matching key). -/
def dictGet : List (String × Int) → String → Int
  | [], _ => 0
  | p :: ps, k => if p.1 = k then p.2 else dictGet ps k

/-- Python dict assignment d[k] = v: replace the first binding of k, or
append (k, v) at the end when k is absent. -/
def dictSet : List (String × Int) → String → Int → List (String × Int)
  | [], k, v => [(k, v)]
  | p :: ps, k, v => if p.1 = k then (k, v) :: ps else p :: dictSet ps k v

/-- Python membership test k in d. -/
def dictHas : List (String × Int) → String → Bool
  | [], _ => false
  | p :: ps, k => if p.1 = k then true else dictHas ps k

/-- One record of the sales log (app.py lines 205-210).  A record read
back from the file may lack a timestamp, hence the Option. -/
structure SaleRec where
  flavor : String
  quantity : Int
  sale_date : String
  timestamp : Option String
deriving Repr, DecidableEq

/-- The persistent state the Store operates on: the inventory document
and the sales document of the local backend (respectively the two remote
tables). -/
structure Store where
  inventory : List (String × Int)
  sales : List SaleRec
deriving Repr, DecidableEq

/-- The seed flavor catalog (app.py lines 35-39). -/
def seed_flavors : List String :=
  ["Vanilla", "Chocolate", "Strawberry", "Mango",
   "Kulfi", "Butterscotch", "Pista", "Chocolate Chip",
   "Black Current", "Orange", "Coconut", "Cassata"]

/-- The default inventory mapping every catalog flavor to zero
(app.py lines 73 and 97 and 263). -/
def default_inventory (flavors : List String) : List (String × Int) :=
  flavors.map (fun f => (f, 0))

/-- InventoryManager.update_inventory (app.py lines 156-193).
new_count is current + count for add, max 0 (current - count) for
subtract, and count itself for any other operation string (set).
writeOk says whether the backend write succeeds; on an exception the
method catches it and returns false with the state unchanged. -/
def update_inventory (s : Store) (flavor : String) (count : Int)
    (operation : String) (writeOk : Bool) : Bool × Store :=
  let current_inventory := s.inventory
  let new_count : Int :=
    if operation = "add" then dictGet current_inventory flavor + count
    else if operation = "subtract" then max 0 (dictGet current_inventory flavor - count)
    else count
  if writeOk then
    (true, { s with inventory := dictSet current_inventory flavor new_count })
  else (false, s)

/-- InventoryManager.record_sale (app.py lines 196-226).  today and now
stand for date.today().isoformat() and datetime.now().isoformat().
saleWriteOk says whether inserting the sale record succeeds (a failure
raises and is caught by record_sale itself, yielding false); invWriteOk
says whether the inventory write inside update_inventory succeeds (a
failure there is caught inside update_inventory, whose Boolean result
record_sale discards). -/
def record_sale (s : Store) (flavor : String) (quantity : Int)
    (today now : String) (saleWriteOk invWriteOk : Bool) : Bool × Store :=
  let current_inventory := s.inventory
  if dictGet current_inventory flavor < quantity then (false, s)
  else
    let sale_data : SaleRec :=
      { flavor := flavor, quantity := quantity,
        sale_date := today, timestamp := some now }
    if saleWriteOk then
      let s1 : Store := { s with sales := s.sales ++ [sale_data] }
      let s2 := (update_inventory s1 flavor quantity "subtract" invWriteOk).2
      (true, s2)
    else (false, s)

/-- Lexicographic comparison of character lists by code point, the
comparison Python uses on strings. -/
def strLebGo : List Char → List Char → Bool
  | [], _ => true
  | _ :: _, [] => false
  | c :: cs, d :: ds =>
    if c.toNat < d.toNat then true
    else if d.toNat < c.toNat then false
    else strLebGo cs ds

/-- Lexicographic order on strings by code point (Python string order). -/
def strLeb (a b : String) : Bool := strLebGo a.data b.data

/-- Python str.strip(): drop leading and trailing whitespace. -/
def pyStrip (s : String) : String :=
  ⟨((s.data.dropWhile Char.isWhitespace).reverse.dropWhile Char.isWhitespace).reverse⟩

/-- Python str.title() on the characters of a string: an alphabetic
character is uppercased when the previous character is not alphabetic
and lowercased otherwise; other characters are kept. -/
def pyTitleGo : Bool → List Char → List Char
  | _, [] => []
  | prevAlpha, c :: rest =>
    (if c.isAlpha then (if prevAlpha then c.toLower else c.toUpper) else c)
      :: pyTitleGo c.isAlpha rest

/-- Python str.title(). -/
def pyTitle (s : String) : String := ⟨pyTitleGo false s.data⟩

/-- InventoryManager.add_new_flavor (app.py lines 99-133).  The raw name
is normalized by strip().title(); an empty normalized name or one already
present in the inventory returns false without side effects.  catalog is
the in-memory self.flavors list, re-sorted after an append.  writeOk says
whether the backend insert succeeds; on an exception the whole method
returns false with nothing changed. -/
def add_new_flavor (s : Store) (catalog : List String) (flavorRaw : String)
    (writeOk : Bool) : Bool × Store × List String :=
  let flavor := pyTitle (pyStrip flavorRaw)
  if flavor = "" then (false, s, catalog)
  else if dictHas s.inventory flavor then (false, s, catalog)
  else if writeOk then
    let s' : Store := { s with inventory := dictSet s.inventory flavor 0 }
    let catalog' :=
      if catalog.contains flavor then catalog
      else List.insertionSort (fun a b => strLeb a b = true) (catalog ++ [flavor])
    (true, s', catalog')
  else (false, s, catalog)

/-- The sort key of a sale record in get_sales_data:
x.get ("timestamp", "") (app.py line 238). -/
def saleKey (r : SaleRec) : String := r.timestamp.getD ""

/-- InventoryManager.get_sales_data on the local backend (app.py lines
228-241): loads the full log and returns it sorted by timestamp
descending (Python sorted with reverse=True is a stable sort; insertion
sort on the reversed key relation is the same stable sort).  The days
parameter is received but never read. -/
def get_sales_data (sales : List SaleRec) (days : Int) : List SaleRec :=
  List.insertionSort (fun a b => strLeb (saleKey b) (saleKey a) = true) sales

/-- Outcome of the backend read performed by get_inventory: a successful
remote scan returning rows, a remote query that raises, or the local path
whose file parse yields some dict or fails (missing or malformed file). -/
inductive BackendRead where
  | remoteRows (rows : List (String × Int))
  | remoteFailure
  | localFile (parsed : Option (List (String × Int)))
deriving Repr, DecidableEq

/-- InventoryManager loading the inventory file (app.py lines 252-263):
a parse failure or missing file falls back to the default zero mapping. -/
def load_inventory_file (flavors : List String)
    (parsed : Option (List (String × Int))) : List (String × Int) :=
  match parsed with
  | some d => d
  | none => default_inventory flavors

/-- InventoryManager.get_inventory (app.py lines 82-97): the remote rows
are folded into a dict; a remote exception is caught and yields the
default zero mapping; the local path delegates to the file loader. -/
def get_inventory (flavors : List String) : BackendRead → List (String × Int)
  | .remoteRows rows => rows.foldl (fun inv p => dictSet inv p.1 p.2) []
  | .remoteFailure => default_inventory flavors
  | .localFile parsed => load_inventory_file flavors parsed

/-- One Store write operation together with the outcome of its backend
writes, for reasoning about arbitrary operation sequences. -/
inductive StoreOp where
  | update (flavor : String) (amount : Int) (operation : String) (writeOk : Bool)
  | addFlavor (name : String) (writeOk : Bool)
  | sale (flavor : String) (quantity : Int) (today now : String)
      (saleWriteOk invWriteOk : Bool)
deriving Repr

/-- Apply one operation to the store and catalog, discarding the Boolean
result exactly as a driving sequence of requests would. -/
def applyOp (st : Store × List String) (op : StoreOp) : Store × List String :=
  match op with
  | .update f a o ok => ((update_inventory st.1 f a o ok).2, st.2)
  | .addFlavor n ok =>
      let r := add_new_flavor st.1 st.2 n ok
      (r.2.1, r.2.2)
  | .sale f q t n ok1 ok2 => ((record_sale st.1 f q t n ok1 ok2).2, st.2)

/-- Run a sequence of Store operations. -/
def runOps (init : Store × List String) (ops : List StoreOp) : Store × List String :=
  ops.foldl applyOp init

/-- The state after _init_local_storage on a fresh directory (app.py
lines 66-80): every seed flavor at count zero, empty sales log. -/
def initialStore : Store :=
  { inventory := default_inventory seed_flavors, sales := [] }

/-- Every count stored in the inventory mapping is non-negative. -/
def invNonneg (inv : List (String × Int)) : Prop := ∀ p ∈ inv, 0 ≤ p.2

instance (inv : List (String × Int)) : Decidable (invNonneg inv) :=
  inferInstanceAs (Decidable (∀ p ∈ inv, 0 ≤ p.2))

/-- A Store operation whose update amount is non-negative whenever the
mode is not subtract: set writes the amount itself and add adds it, so a
negative amount in those modes is what can drive a count negative. -/
def safeAmounts : StoreOp → Prop
  | .update _ a o _ => o = "subtract" ∨ 0 ≤ a
  | _ => True

/-! Basic dictionary lemmas. -/

theorem dictGet_dictSet_same (d : List (String × Int)) (k : String) (v : Int) :
    dictGet (dictSet d k v) k = v := by
  induction d with
  | nil => simp [dictSet, dictGet]
  | cons p ps ih =>
    by_cases h : p.1 = k
    · simp [dictSet, h, dictGet]
    · simp [dictSet, h, dictGet, ih]

theorem dictGet_nonneg (d : List (String × Int)) (k : String)
    (hd : invNonneg d) : 0 ≤ dictGet d k := by
  induction d with
  | nil => simp [dictGet]
  | cons p ps ih =>
    by_cases h : p.1 = k
    · simpa [dictGet, h] using hd p (by simp)
    · simpa [dictGet, h] using ih (fun q hq => hd q (by simp [hq]))

theorem invNonneg_dictSet (d : List (String × Int)) (k : String) (v : Int)
    (hd : invNonneg d) (hv : 0 ≤ v) : invNonneg (dictSet d k v) := by
  induction d with
  | nil => intro p hp; simp [dictSet] at hp; simp [hp, hv]
  | cons q qs ih =>
    by_cases h : q.1 = k
    · intro p hp
      simp [dictSet, h] at hp
      rcases hp with hp | hp
      · simp [hp, hv]
      · exact hd p (by simp [hp])
    · intro p hp
      simp [dictSet, h] at hp
      rcases hp with hp | hp
      · exact hd p (by simp [hp])
      · exact ih (fun r hr => hd r (by simp [hr])) p hp

/-! Claim theorems. -/

/-- C1: for every flavor f and quantity n strictly greater than the
current count of f, record_sale returns false and changes nothing:
neither the inventory nor the sales log, whatever the backend writes
would have done. -/
theorem record_sale_insufficient_stock (s : Store) (f : String) (n : Int)
    (today now : String) (ok1 ok2 : Bool) (h : dictGet s.inventory f < n) :
    record_sale s f n today now ok1 ok2 = (false, s) := by
  simp [record_sale, h]

theorem record_sale_insufficient_stock_witness :
    record_sale { inventory := [("Vanilla", 2)], sales := [] } "Vanilla" 5
        "2024-01-01" "2024-01-01T10:00:00" true true
      = (false, { inventory := [("Vanilla", 2)], sales := [] }) :=
  record_sale_insufficient_stock _ "Vanilla" 5 _ _ true true (by decide)

/-- C2: for every flavor f with current count c and quantity n with
c ≥ n > 0, record_sale (with both backend writes succeeding) returns
true, appends exactly one sale record with quantity n to the sales log,
and leaves the count of f equal to c - n. -/
theorem record_sale_success (s : Store) (f : String) (n : Int) (today now : String)
    (h1 : 0 < n) (h2 : n ≤ dictGet s.inventory f) :
    (record_sale s f n today now true true).1 = true ∧
    (record_sale s f n today now true true).2.sales
      = s.sales ++ [{ flavor := f, quantity := n,
                      sale_date := today, timestamp := some now }] ∧
    dictGet (record_sale s f n today now true true).2.inventory f
      = dictGet s.inventory f - n := by
  have hnotlt : ¬ dictGet s.inventory f < n := not_lt.mpr h2
  refine ⟨?_, ?_, ?_⟩
  · simp [record_sale, hnotlt, update_inventory]
  · simp [record_sale, hnotlt, update_inventory]
  · simp [record_sale, hnotlt, update_inventory, dictGet_dictSet_same]
    omega

theorem record_sale_success_witness :
    (record_sale { inventory := [("Vanilla", 7)], sales := [] } "Vanilla" 3
        "2024-01-01" "2024-01-01T10:00:00" true true).1 = true ∧
    (record_sale { inventory := [("Vanilla", 7)], sales := [] } "Vanilla" 3
        "2024-01-01" "2024-01-01T10:00:00" true true).2.sales
      = [] ++ [{ flavor := "Vanilla", quantity := 3, sale_date := "2024-01-01",
                 timestamp := some "2024-01-01T10:00:00" }] ∧
    dictGet (record_sale { inventory := [("Vanilla", 7)], sales := [] } "Vanilla" 3
        "2024-01-01" "2024-01-01T10:00:00" true true).2.inventory "Vanilla"
      = dictGet [("Vanilla", 7)] "Vanilla" - 3 :=
  record_sale_success _ "Vanilla" 3 _ _ (by decide) (by decide)

/-- C4: subtract mode computes max 0 (current - amount); in particular
an over-subtraction (amount strictly above the current count) leaves the
count at exactly zero, never negative. -/
theorem update_subtract_clamps (s : Store) (f : String) (n : Int) :
    dictGet (update_inventory s f n "subtract" true).2.inventory f
      = max 0 (dictGet s.inventory f - n) ∧
    (dictGet s.inventory f < n →
      dictGet (update_inventory s f n "subtract" true).2.inventory f = 0) := by
  constructor
  · simp [update_inventory, dictGet_dictSet_same]
  · intro h
    simp [update_inventory, dictGet_dictSet_same]
    omega

theorem update_subtract_clamps_witness :
    dictGet (update_inventory { inventory := [("Mango", 4)], sales := [] }
        "Mango" 9 "subtract" true).2.inventory "Mango" = 0 :=
  (update_subtract_clamps { inventory := [("Mango", 4)], sales := [] }
    "Mango" 9).2 (by decide)

/-- C5: for non-negative a and b, update_inventory set a followed by
update_inventory add b leaves the count of f equal to a + b. -/
theorem set_then_add (s : Store) (f : String) (a b : Int)
    (ha : 0 ≤ a) (hb : 0 ≤ b) :
    dictGet (update_inventory
        (update_inventory s f a "set" true).2 f b "add" true).2.inventory f
      = a + b := by
  simp [update_inventory, dictGet_dictSet_same]

theorem set_then_add_witness :
    dictGet (update_inventory
        (update_inventory { inventory := [], sales := [] } "Pista" 10 "set" true).2
        "Pista" 5 "add" true).2.inventory "Pista" = 10 + 5 :=
  set_then_add { inventory := [], sales := [] } "Pista" 10 5 (by decide) (by decide)

/-- C6: add_new_flavor normalizes the raw name by strip and title-case
(the spec's Mango example is the first conjunct); it returns false with
no state change when the normalized name is empty or already an
inventory key, and otherwise (the backend insert succeeding) creates the
flavor at count 0 and returns true. -/
theorem add_new_flavor_spec (s : Store) (catalog : List String)
    (raw : String) (ok : Bool) :
    pyTitle (pyStrip "  mango ") = "Mango" ∧
    ((pyTitle (pyStrip raw) = "" ∨ dictHas s.inventory (pyTitle (pyStrip raw)) = true) →
      add_new_flavor s catalog raw ok = (false, s, catalog)) ∧
    (pyTitle (pyStrip raw) ≠ "" → dictHas s.inventory (pyTitle (pyStrip raw)) = false →
      ok = true →
      (add_new_flavor s catalog raw ok).1 = true ∧
      (add_new_flavor s catalog raw ok).2.1.inventory
        = dictSet s.inventory (pyTitle (pyStrip raw)) 0 ∧
      dictGet (add_new_flavor s catalog raw ok).2.1.inventory (pyTitle (pyStrip raw)) = 0) := by
  refine ⟨by decide, ?_, ?_⟩
  · rintro (h | h) <;> simp [add_new_flavor, h]
  · intro h1 h2 h3
    subst h3
    refine ⟨?_, ?_, ?_⟩ <;> simp [add_new_flavor, h1, h2, dictGet_dictSet_same]

theorem add_new_flavor_spec_witness :
    add_new_flavor { inventory := [("Mango", 5)], sales := [] } seed_flavors "  mango " true
      = (false, { inventory := [("Mango", 5)], sales := [] }, seed_flavors) :=
  (add_new_flavor_spec { inventory := [("Mango", 5)], sales := [] }
    seed_flavors "  mango " true).2.1 (Or.inr (by decide))

/-- Looking up any listed flavor in the default zero inventory gives 0. -/
theorem dictGet_default_inventory (flavors : List String) (f : String)
    (hf : f ∈ flavors) : dictGet (default_inventory flavors) f = 0 := by
  induction flavors with
  | nil => simp at hf
  | cons g gs ih =>
    by_cases h : g = f
    · simp [default_inventory, dictGet, h]
    · have hf' : f ∈ gs := by
        rcases List.mem_cons.mp hf with h' | h'
        · exact absurd h'.symm h
        · exact h'
      simpa [default_inventory, dictGet, h] using ih hf'

/-- C7: on a backend failure (remote query exception, missing or
malformed local file) get_inventory propagates nothing and returns the
default mapping sending every catalog flavor to zero. -/
theorem get_inventory_failure_default (flavors : List String) :
    get_inventory flavors BackendRead.remoteFailure = default_inventory flavors ∧
    get_inventory flavors (BackendRead.localFile none) = default_inventory flavors ∧
    ∀ f ∈ flavors,
      dictGet (get_inventory flavors BackendRead.remoteFailure) f = 0 ∧
      dictGet (get_inventory flavors (BackendRead.localFile none)) f = 0 := by
  refine ⟨rfl, rfl, fun f hf => ⟨?_, ?_⟩⟩ <;>
    simpa [get_inventory, load_inventory_file] using dictGet_default_inventory flavors f hf

theorem get_inventory_failure_default_witness :
    get_inventory seed_flavors BackendRead.remoteFailure = default_inventory seed_flavors ∧
    dictGet (get_inventory seed_flavors BackendRead.remoteFailure) "Vanilla" = 0 :=
  ⟨(get_inventory_failure_default seed_flavors).1,
   ((get_inventory_failure_default seed_flavors).2.2 "Vanilla" (by decide)).1⟩

/-- C9: when the stock check passes and the sale insert succeeds but the
inventory write inside update_inventory raises (the exception is caught
inside update_inventory and its Boolean result is discarded by
record_sale), record_sale still returns true: the sale is logged while
the inventory is not decremented, so a true result does not imply the
decrement happened. -/
theorem record_sale_ignores_update_failure (s : Store) (f : String) (q : Int)
    (today now : String) (h : q ≤ dictGet s.inventory f) :
    (record_sale s f q today now true false).1 = true ∧
    (record_sale s f q today now true false).2.inventory = s.inventory ∧
    (record_sale s f q today now true false).2.sales
      = s.sales ++ [{ flavor := f, quantity := q,
                      sale_date := today, timestamp := some now }] := by
  have hnotlt : ¬ dictGet s.inventory f < q := not_lt.mpr h
  refine ⟨?_, ?_, ?_⟩ <;> simp [record_sale, hnotlt, update_inventory]

theorem record_sale_ignores_update_failure_witness :
    (record_sale { inventory := [("Orange", 6)], sales := [] } "Orange" 4
        "2024-01-01" "2024-01-01T10:00:00" true false).1 = true ∧
    (record_sale { inventory := [("Orange", 6)], sales := [] } "Orange" 4
        "2024-01-01" "2024-01-01T10:00:00" true false).2.inventory = [("Orange", 6)] ∧
    (record_sale { inventory := [("Orange", 6)], sales := [] } "Orange" 4
        "2024-01-01" "2024-01-01T10:00:00" true false).2.sales
      = [] ++ [{ flavor := "Orange", quantity := 4, sale_date := "2024-01-01",
                 timestamp := some "2024-01-01T10:00:00" }] :=
  record_sale_ignores_update_failure _ "Orange" 4 _ _ (by decide)

/-- C10: a non-positive quantity passes the insufficient-stock check
whenever the current count is non-negative: record_sale returns true and
appends a sale record with that quantity, and the final count is the
current count minus the quantity, which for a strictly negative quantity
is a strict increase of the inventory. -/
theorem record_sale_nonpositive_quantity (s : Store) (f : String) (q : Int)
    (today now : String) (hc : 0 ≤ dictGet s.inventory f) (hq : q ≤ 0) :
    (record_sale s f q today now true true).1 = true ∧
    (record_sale s f q today now true true).2.sales
      = s.sales ++ [{ flavor := f, quantity := q,
                      sale_date := today, timestamp := some now }] ∧
    dictGet (record_sale s f q today now true true).2.inventory f
      = dictGet s.inventory f - q ∧
    (q < 0 → dictGet s.inventory f
      < dictGet (record_sale s f q today now true true).2.inventory f) := by
  have hnotlt : ¬ dictGet s.inventory f < q := not_lt.mpr (le_trans hq hc)
  refine ⟨?_, ?_, ?_, ?_⟩
  · simp [record_sale, hnotlt, update_inventory]
  · simp [record_sale, hnotlt, update_inventory]
  · simp [record_sale, hnotlt, update_inventory, dictGet_dictSet_same]
    omega
  · intro hlt
    simp [record_sale, hnotlt, update_inventory, dictGet_dictSet_same]
    omega

theorem record_sale_nonpositive_quantity_witness :
    (record_sale { inventory := [("Coconut", 2)], sales := [] } "Coconut" (-3)
        "2024-01-01" "2024-01-01T10:00:00" true true).1 = true ∧
    (record_sale { inventory := [("Coconut", 2)], sales := [] } "Coconut" (-3)
        "2024-01-01" "2024-01-01T10:00:00" true true).2.sales
      = [] ++ [{ flavor := "Coconut", quantity := -3, sale_date := "2024-01-01",
                 timestamp := some "2024-01-01T10:00:00" }] ∧
    dictGet (record_sale { inventory := [("Coconut", 2)], sales := [] } "Coconut" (-3)
        "2024-01-01" "2024-01-01T10:00:00" true true).2.inventory "Coconut"
      = dictGet [("Coconut", 2)] "Coconut" - (-3) ∧
    (-3 < (0 : Int) → dictGet [("Coconut", 2)] "Coconut"
      < dictGet (record_sale { inventory := [("Coconut", 2)], sales := [] } "Coconut" (-3)
          "2024-01-01" "2024-01-01T10:00:00" true true).2.inventory "Coconut") :=
  record_sale_nonpositive_quantity _ "Coconut" (-3) _ _ (by decide) (by decide)

/-! Preservation of the non-negativity invariant. -/

theorem update_preserves_nonneg (s : Store) (f : String) (a : Int) (o : String)
    (ok : Bool) (hs : invNonneg s.inventory) (ha : o = "subtract" ∨ 0 ≤ a) :
    invNonneg (update_inventory s f a o ok).2.inventory := by
  have hget := dictGet_nonneg s.inventory f hs
  by_cases hok : ok = true
  · subst hok
    simp only [update_inventory, if_true]
    apply invNonneg_dictSet _ _ _ hs
    by_cases h1 : o = "add"
    · have haa : 0 ≤ a := by
        rcases ha with h | h
        · rw [h1] at h; exact absurd h (by decide)
        · exact h
      simp only [h1, if_pos rfl]
      omega
    · by_cases h2 : o = "subtract"
      · simp [h1, h2, le_max_left]
      · have haa : 0 ≤ a := ha.resolve_left h2
        simp [h1, h2, haa]
  · simp only [update_inventory, if_neg hok]
    exact hs

theorem applyOp_preserves_nonneg (st : Store × List String) (op : StoreOp)
    (hs : invNonneg st.1.inventory) (hop : safeAmounts op) :
    invNonneg (applyOp st op).1.inventory := by
  cases op with
  | update f a o ok => exact update_preserves_nonneg st.1 f a o ok hs hop
  | addFlavor n ok =>
    by_cases h1 : pyTitle (pyStrip n) = ""
    · simpa [applyOp, add_new_flavor, h1] using hs
    · by_cases h2 : dictHas st.1.inventory (pyTitle (pyStrip n)) = true
      · simpa [applyOp, add_new_flavor, h1, h2] using hs
      · by_cases h3 : ok = true
        · subst h3
          simp only [applyOp, add_new_flavor, h1, h2]
          simpa [h1, h2] using invNonneg_dictSet _ _ _ hs le_rfl
        · simpa [applyOp, add_new_flavor, h1, h2, h3] using hs
  | sale f q t n ok1 ok2 =>
    by_cases h1 : dictGet st.1.inventory f < q
    · simpa [applyOp, record_sale, h1] using hs
    · by_cases h2 : ok1 = true
      · subst h2
        simp only [applyOp, record_sale, if_neg h1, if_pos rfl]
        apply update_preserves_nonneg _ f q "subtract" ok2 _ (Or.inl rfl)
        exact hs
      · simpa [applyOp, record_sale, h1, h2] using hs

theorem runOps_preserves_nonneg (ops : List StoreOp) (st : Store × List String)
    (hs : invNonneg st.1.inventory) (hops : ∀ op ∈ ops, safeAmounts op) :
    invNonneg (runOps st ops).1.inventory := by
  induction ops generalizing st with
  | nil => exact hs
  | cons op rest ih =>
    exact ih (applyOp st op)
      (applyOp_preserves_nonneg st op hs (hops op (by simp)))
      (fun o ho => hops o (by simp [ho]))

/-- C3 (amended): starting from the initial all-zero inventory, after any
sequence of Store operations in which every updateInventory call either
uses subtract mode or is given a non-negative amount, every count stored
in the inventory mapping is non-negative.  (Without that restriction the
claim fails: set or add with a negative amount stores a negative count,
see the counterexample.) -/
theorem inventory_nonneg_invariant (ops : List StoreOp)
    (hops : ∀ op ∈ ops, safeAmounts op) :
    invNonneg (runOps (initialStore, seed_flavors) ops).1.inventory :=
  runOps_preserves_nonneg ops _ (by decide) hops

theorem inventory_nonneg_invariant_witness :
    invNonneg (runOps (initialStore, seed_flavors)
      [StoreOp.update "Vanilla" 50 "add" true,
       StoreOp.sale "Vanilla" 20 "2024-01-01" "2024-01-01T10:00:00" true true,
       StoreOp.addFlavor "  mint " true]).1.inventory :=
  inventory_nonneg_invariant _ (by
    intro op hop
    simp only [List.mem_cons, List.mem_singleton] at hop
    rcases hop with rfl | rfl | rfl | h
    · exact Or.inr (by decide)
    · trivial
    · trivial
    · simp at h)

/-- C3 as stated is false: a single updateInventory in set mode with a
negative amount drives the stored count of Vanilla to -5, so the
inventory mapping holds a negative count. -/
theorem negative_set_breaks_invariant :
    ¬ invNonneg (runOps (initialStore, seed_flavors)
      [StoreOp.update "Vanilla" (-5) "set" true]).1.inventory := by decide

/-! Order facts about the timestamp comparison used by get_sales_data. -/

theorem strLebGo_total (xs ys : List Char) :
    strLebGo xs ys = true ∨ strLebGo ys xs = true := by
  induction xs generalizing ys with
  | nil => left; rfl
  | cons c cs ih =>
    cases ys with
    | nil => right; rfl
    | cons d ds =>
      by_cases h1 : c.toNat < d.toNat
      · left; simp [strLebGo, h1]
      · by_cases h2 : d.toNat < c.toNat
        · right; simp [strLebGo, h1, h2]
        · rcases ih ds with h | h
          · left; simp [strLebGo, h1, h2, h]
          · right; simp [strLebGo, h1, h2, h]

theorem strLebGo_trans (xs ys zs : List Char) (hxy : strLebGo xs ys = true)
    (hyz : strLebGo ys zs = true) : strLebGo xs zs = true := by
  induction xs generalizing ys zs with
  | nil => rfl
  | cons c cs ih =>
    cases ys with
    | nil => simp [strLebGo] at hxy
    | cons d ds =>
      cases zs with
      | nil => simp [strLebGo] at hyz
      | cons e es =>
        by_cases hcd : c.toNat < d.toNat
        · by_cases hde : d.toNat < e.toNat
          · simp [strLebGo, show c.toNat < e.toNat by omega]
          · by_cases hed : e.toNat < d.toNat
            · simp [strLebGo, hde, hed] at hyz
            · simp [strLebGo, show c.toNat < e.toNat by omega]
        · by_cases hdc : d.toNat < c.toNat
          · simp [strLebGo, hcd, hdc] at hxy
          · by_cases hde : d.toNat < e.toNat
            · simp [strLebGo, show c.toNat < e.toNat by omega]
            · by_cases hed : e.toNat < d.toNat
              · simp [strLebGo, hde, hed] at hyz
              · have hxy' : strLebGo cs ds = true := by
                  simpa [strLebGo, hcd, hdc] using hxy
                have hyz' : strLebGo ds es = true := by
                  simpa [strLebGo, hde, hed] using hyz
                simp [strLebGo, show ¬ c.toNat < e.toNat by omega,
                  show ¬ e.toNat < c.toNat by omega, ih ds es hxy' hyz']

instance : IsTotal SaleRec (fun a b => strLeb (saleKey b) (saleKey a) = true) :=
  ⟨fun a b => strLebGo_total (saleKey b).data (saleKey a).data⟩

instance : IsTrans SaleRec (fun a b => strLeb (saleKey b) (saleKey a) = true) :=
  ⟨fun _ _ _ hab hbc => strLebGo_trans _ _ _ hbc hab⟩

/-- C8 (amended): get_sales_data returns the same result for every value
of the days argument (the parameter performs no filtering); on the local
backend the result is a permutation of the full sales log, sorted newest
first by timestamp in the code-point order Python uses on the timestamp
strings; a record missing its timestamp sorts under the empty-string key,
which is the minimum, so such a record appears last, not first, in the
descending order. -/
theorem get_sales_data_spec (sales : List SaleRec) (d1 d2 : Int) :
    get_sales_data sales d1 = get_sales_data sales d2 ∧
    (get_sales_data sales d1).Perm sales ∧
    (get_sales_data sales d1).Sorted
      (fun a b => strLeb (saleKey b) (saleKey a) = true) ∧
    (∀ a : SaleRec, a.timestamp = none → saleKey a = "") := by
  refine ⟨rfl, List.perm_insertionSort _ _, List.sorted_insertionSort _ _, ?_⟩
  intro a ha
  simp [saleKey, ha]

theorem get_sales_data_spec_witness :
    get_sales_data [{ flavor := "Kulfi", quantity := 1, sale_date := "2024-01-01",
                      timestamp := none }] 5
      = get_sales_data [{ flavor := "Kulfi", quantity := 1, sale_date := "2024-01-01",
                          timestamp := none }] 99 ∧
    saleKey { flavor := "Kulfi", quantity := 1, sale_date := "2024-01-01",
              timestamp := none } = "" :=
  ⟨(get_sales_data_spec [{ flavor := "Kulfi", quantity := 1,
                           sale_date := "2024-01-01", timestamp := none }] 5 99).1,
   (get_sales_data_spec [{ flavor := "Kulfi", quantity := 1,
                           sale_date := "2024-01-01", timestamp := none }] 5 99).2.2.2 _ rfl⟩

/-- C8 as stated is false on its missing-timestamp part: sorting a log
holding one record without a timestamp and one record with a timestamp,
the timestamped record comes first and the record without a timestamp
comes last in the descending order, not first. -/
theorem missing_timestamp_sorts_last :
    get_sales_data
        [{ flavor := "Mango", quantity := 2, sale_date := "2024-01-02",
           timestamp := none },
         { flavor := "Vanilla", quantity := 1, sale_date := "2024-01-01",
           timestamp := some "2024-01-01T10:00:00" }] 30
      = [{ flavor := "Vanilla", quantity := 1, sale_date := "2024-01-01",
           timestamp := some "2024-01-01T10:00:00" },
         { flavor := "Mango", quantity := 2, sale_date := "2024-01-02",
           timestamp := none }] ∧
    (get_sales_data
        [{ flavor := "Mango", quantity := 2, sale_date := "2024-01-02",
           timestamp := none },
         { flavor := "Vanilla", quantity := 1, sale_date := "2024-01-01",
           timestamp := some "2024-01-01T10:00:00" }] 30).head?
      ≠ some { flavor := "Mango", quantity := 2, sale_date := "2024-01-02",
               timestamp := none } := by decide

end App
